import Mathlib

/-!
Verification of the authentication and rate-limiting core of the AlphaAI backend.

The development shallow-embeds the Python sources under `backend/core/`
(`auth_service.py`, `auth_enhanced.py`, `security.py`, `rate_limiter.py`,
`database.py`) as pure Lean functions over explicit state:

* timestamps are unix seconds (`Nat` for the auth layer, `Int` for the
  rate limiter, whose Python code works with `time.time()` differences);
* database rows (`User`, `UserSession`, `RefreshToken`) are structures and a
  database is a list of rows; SQLAlchemy `update ... where` statements become
  `List.map` with a guard, `select ... where` with `scalar_one_or_none`
  becomes `List.find?`;
* cryptographic primitives (Argon2/bcrypt verification, SHA-256 token
  hashing, RS256 signatures) are abstracted: password verification outcomes
  become an explicit outcome type, token hashing becomes a function
  parameter, and signature validity becomes a boolean field;
* exceptions become `Except` results.
-/

namespace AlphaAI

/-! ## Rate limiter (`core/rate_limiter.py`) -/

/-- Rate limit configuration (`RateLimit` dataclass): `requests` allowed per
`window_seconds`.  The strategy field is fixed to the default sliding window
here, the only strategy the embedded checks use. -/
structure RateLimit where
  requests : Nat
  window_seconds : Nat
deriving DecidableEq, Repr

/-- Result of a rate-limit check (`RateLimitResult` dataclass). -/
structure RateLimitResult where
  allowed : Bool
  remaining : Nat
  reset_time : Int
  retry_after : Option Nat
deriving DecidableEq, Repr

/-- The head-pruning loop of `MemoryRateLimiter._sliding_window_check`:
`while requests and requests[0] < window_start: requests.popleft()`. -/
def pruneFront (windowStart : Int) : List Int → List Int
  | [] => []
  | t :: ts => if t < windowStart then pruneFront windowStart ts else t :: ts

/-- `MemoryRateLimiter._sliding_window_check` (`core/rate_limiter.py` 263-291):
prune timestamps strictly older than `now - window_seconds`, admit iff the
remaining count is below the limit, append `now` only when admitted.
`remaining` is `max(0, limit.requests - len(requests))` computed after the
prune and before the append; `retry_after` is the window length when denied.
Returns the result together with the updated per-key deque. -/
def slidingWindowCheck (requests : List Int) (limit : RateLimit) (now : Int) :
    RateLimitResult × List Int :=
  let pruned := pruneFront (now - limit.window_seconds) requests
  let allowed := decide (pruned.length < limit.requests)
  let updated := if allowed then pruned ++ [now] else pruned
  (⟨allowed, limit.requests - pruned.length, now + limit.window_seconds,
    if allowed then none else some limit.window_seconds⟩, updated)

/-- Connection state of `RateLimitManager`: `use_redis` and
`redis_limiter is not None` from `__init__`, plus the `RedisRateLimiter`'s
`_connected` flag. -/
structure ManagerState where
  use_redis : Bool
  has_redis_limiter : Bool
  redis_connected : Bool
deriving DecidableEq, Repr

/-- `RateLimitManager.__init__`: `use_redis = redis_url is not None and
REDIS_AVAILABLE`; the `RedisRateLimiter` is constructed exactly when
`use_redis` holds (its `ImportError` re-raise is unreachable once
`REDIS_AVAILABLE` is true); `_connected` starts false. -/
def RateLimitManager.construct (redisUrlGiven redisAvailable : Bool) : ManagerState :=
  { use_redis := redisUrlGiven && redisAvailable,
    has_redis_limiter := redisUrlGiven && redisAvailable,
    redis_connected := false }

/-- `RateLimitManager.initialize` combined with `RedisRateLimiter.connect`:
`connect` swallows every exception internally and just records `_connected`,
so the `except` branch of `initialize` (which would clear `use_redis`) never
runs; a failed connect leaves `use_redis` untouched and `_connected` false. -/
def RateLimitManager.initRedis (st : ManagerState) (connectOk : Bool) : ManagerState :=
  if st.use_redis && st.has_redis_limiter then
    { st with redis_connected := connectOk }
  else st

/-- `RedisRateLimiter.check_rate_limit`: raises `Exception("Redis not
connected")` when `_connected` is false; otherwise the network round trip is
abstracted as the supplied `behavior`. -/
def redisCheck (connected : Bool) (behavior : Except String RateLimitResult) :
    Except String RateLimitResult :=
  if connected then behavior else .error ("Redis not connected")

/-- The fail-open result built in the `except` branch of
`RateLimitManager.check_rate_limit`: allowed, with a full remaining quota. -/
def failOpenResult (limit : RateLimit) (now : Int) : RateLimitResult :=
  ⟨true, limit.requests, now + limit.window_seconds, none⟩

/-- `RateLimitManager.check_rate_limit` (`core/rate_limiter.py` 402-428) for a
single key: when `use_redis` and a limiter exist the Redis backend is tried
and any exception from it is converted to the fail-open result; otherwise the
in-memory limiter (sliding window, the default strategy) runs on the key's
deque `memRequests`.  Returns the result and the (possibly updated) deque. -/
def RateLimitManager.check (st : ManagerState) (behavior : Except String RateLimitResult)
    (memRequests : List Int) (limit : RateLimit) (now : Int) :
    RateLimitResult × List Int :=
  if st.use_redis && st.has_redis_limiter then
    match redisCheck st.redis_connected behavior with
    | .ok r => (r, memRequests)
    | .error _ => (failOpenResult limit now, memRequests)
  else
    slidingWindowCheck memRequests limit now

/-! ## Password verification (`core/auth_service.py`, `core/auth_enhanced.py`,
`core/security.py`) -/

/-- Outcome of the underlying primitive (`argon2.PasswordHasher.verify` or
`bcrypt.checkpw`): match, mismatch, or some other internal failure (for
example a malformed stored hash raising `InvalidHashError`/`ValueError`). -/
inductive VerifyOutcome
  | ok
  | mismatch
  | failure (msg : String)
deriving DecidableEq, Repr

/-- `CryptoService.verify_password` from `core/auth_service.py` (126-132):
catches only `VerifyMismatchError`; every other exception escapes to the
caller, modeled as `.error`. -/
def CryptoService.verify_password (o : VerifyOutcome) : Except String Bool :=
  match o with
  | .ok => .ok true
  | .mismatch => .ok false
  | .failure msg => .error msg

/-- `CryptoService.verify_password` from `core/auth_enhanced.py` (183-192):
catches `VerifyMismatchError` and then any `Exception`, returning `False`
in both cases. -/
def EnhancedCryptoService.verify_password (o : VerifyOutcome) : Except String Bool :=
  match o with
  | .ok => .ok true
  | .mismatch => .ok false
  | .failure _ => .ok false

/-- `PasswordHasher.verify_password` from `core/security.py` (454-460):
`bcrypt.checkpw` returns `False` on mismatch, and a bare
`except Exception: return False` absorbs every error. -/
def PasswordHasher.verify_password (o : VerifyOutcome) : Except String Bool :=
  match o with
  | .ok => .ok true
  | .mismatch => .ok false
  | .failure _ => .ok false

/-! ## JWT service (`core/auth_enhanced.py` 203-298) -/

/-- Token types (`TokenType` enum). -/
inductive TokenType
  | access
  | refresh
  | email_verification
  | password_reset
  | mfa
deriving DecidableEq, Repr, Fintype

/-- `TokenType.value`: the string discriminator embedded in the claim set. -/
def TokenType.value : TokenType → String
  | .access => "access"
  | .refresh => "refresh"
  | .email_verification => "email_verification"
  | .password_reset => "password_reset"
  | .mfa => "mfa"

/-- Per-type lifetime in seconds, from the `AuthConfig` of
`core/auth_enhanced.py`: ACCESS 15 minutes, REFRESH 30 days,
EMAIL_VERIFICATION 24 hours, PASSWORD_RESET 1 hour, MFA 5 minutes. -/
def tokenTTL : TokenType → Nat
  | .access => 15 * 60
  | .refresh => 30 * 86400
  | .email_verification => 24 * 3600
  | .password_reset => 1 * 3600
  | .mfa => 5 * 60

/-- The claim set built by `JWTService.create_token`.  `sub` is `str(user_id)`
in the source; since `str` is injective on ids it is kept as the id itself. -/
structure JWTPayload where
  sub : Nat
  iat : Nat
  exp : Nat
  iss : String
  aud : String
  type : String
  nbf : Nat
  sid : Option Nat
  jti : Option Nat
deriving DecidableEq, Repr

/-- A signed JWT: the payload plus whether its RS256 signature verifies under
the platform public key (the signature crypto is abstracted as a flag). -/
structure SignedToken where
  payload : JWTPayload
  sigValid : Bool
deriving DecidableEq, Repr

/-- The two externally distinguished verification failures (`core/auth_enhanced.py`
282-298): `ExpiredSignatureError` maps to 401 "Token has expired", every other
failure to 401 "Invalid token". -/
inductive TokenError
  | expired
  | invalid
deriving DecidableEq, Repr

/-- `JWTService.create_token` (`core/auth_enhanced.py` 209-263): subject,
issued-at, expiry from the type-specific TTL, issuer, audience, type tag,
not-before, optional session and correlation ids; signed with the platform
private key. -/
def JWTService.create_token (user_id : Nat) (token_type : TokenType)
    (session_id : Option Nat) (jti : Option Nat) (now : Nat) : SignedToken :=
  { payload :=
      { sub := user_id
        iat := now
        exp := now + tokenTTL token_type
        iss := "ai-trading-platform"
        aud := "api"
        type := token_type.value
        nbf := now
        sid := session_id
        jti := jti }
    sigValid := true }

/-- `JWTService.verify_token` (`core/auth_enhanced.py` 265-298): `jwt.decode`
checks the signature, then not-before (invalid iff `nbf > now`), expiry
(expired iff `exp <= now`), audience and issuer; the service then rejects a
mismatched type tag as `InvalidTokenError`. -/
def JWTService.verify_token (t : SignedToken) (expected_type : TokenType) (now : Nat) :
    Except TokenError JWTPayload :=
  if t.sigValid = false then .error .invalid
  else if now < t.payload.nbf then .error .invalid
  else if t.payload.exp ≤ now then .error .expired
  else if t.payload.aud ≠ "api" then .error .invalid
  else if t.payload.iss ≠ "ai-trading-platform" then .error .invalid
  else if t.payload.type ≠ expected_type.value then .error .invalid
  else .ok t.payload

/-! ## Account lockout (`core/auth_service.py` 386-434) -/

/-- `AuthConfig.MAX_FAILED_ATTEMPTS` in `core/auth_service.py` (the same value
as `SecurityConfig.LOGIN_ATTEMPTS_LIMIT` in `core/security.py`). -/
def AuthServiceConfig.MAX_FAILED_ATTEMPTS : Nat := 5

/-- `AuthConfig.LOCKOUT_DURATION_MINUTES` in `core/auth_service.py` (equal to
`SecurityConfig.LOCKOUT_DURATION_MINUTES`). -/
def AuthServiceConfig.LOCKOUT_DURATION_MINUTES : Nat := 15

/-- The credential-relevant fields of a `users` row (`core/database.py`). -/
structure UserAccount where
  is_active : Bool
  has_password_hash : Bool
  failed_login_attempts : Nat
  locked_until : Option Nat
deriving DecidableEq, Repr

/-- The outcomes of `AuthService.authenticate_user`: the source returns the
user on success, returns `None` on unknown user / wrong password (collapsed
into one generic failure), and raises HTTP 423 when the account is locked. -/
inductive AuthResult
  | success
  | invalidCredentials
  | accountLocked
deriving DecidableEq, Repr

/-- The lock test `user.locked_until and user.locked_until > datetime.utcnow()`:
locked iff a lockout time is set and now is strictly before it. -/
def lockedCheck : Option Nat → Nat → Bool
  | none, _ => false
  | some t, now => decide (now < t)

/-- `AuthService.authenticate_user` (`core/auth_service.py` 395-434).  The user
lookup filters on `is_active`; a missing row or missing hash yields the generic
failure.  Password verification is abstracted as `passwordCorrect`.  A wrong
password increments the failed counter and sets `locked_until` once the counter
reaches the limit; a correct password (when not locked) clears both.  Returns
the result together with the persisted account row. -/
def AuthService.authenticate_user (u : UserAccount) (passwordCorrect : Bool)
    (now : Nat) : AuthResult × UserAccount :=
  if !u.is_active || !u.has_password_hash then (.invalidCredentials, u)
  else if lockedCheck u.locked_until now then (.accountLocked, u)
  else if !passwordCorrect then
    let failed := u.failed_login_attempts + 1
    let lockedU :=
      if AuthServiceConfig.MAX_FAILED_ATTEMPTS ≤ failed then
        some (now + AuthServiceConfig.LOCKOUT_DURATION_MINUTES * 60)
      else u.locked_until
    (.invalidCredentials, { u with failed_login_attempts := failed, locked_until := lockedU })
  else (.success, { u with failed_login_attempts := 0, locked_until := none })

/-- Repeated wrong-password attempts: fold `authenticate_user` with an
incorrect password over a list of attempt times. -/
def wrongAttempts (u : UserAccount) (times : List Nat) : UserAccount :=
  times.foldl (fun acc t => (AuthService.authenticate_user acc false t).2) u

/-! ## Session and refresh-token store (`core/database.py`,
`core/auth_service.py`, `core/auth_enhanced.py`) -/

/-- A `user_sessions` row (`core/database.py` 47-70).  Ids are abstracted as
naturals (uuid strings in the source). -/
structure UserSession where
  session_id : Nat
  user_id : Nat
  ip_address : Option String
  user_agent : String
  is_active : Bool
  created_at : Nat
  last_activity : Nat
  expires_at : Nat
  revoked_at : Option Nat
deriving DecidableEq, Repr

/-- A `refresh_tokens` row (`core/database.py` 71-95). -/
structure RefreshToken where
  id : Nat
  user_id : Nat
  session_id : Nat
  token_hash : Nat
  jti : Nat
  is_active : Bool
  created_at : Nat
  expires_at : Nat
  used_at : Option Nat
  replaced_by : Option Nat
  revoked_at : Option Nat
deriving DecidableEq, Repr

/-- The relational store as seen by the session/refresh services. -/
structure AuthDB where
  sessions : List UserSession
  tokens : List RefreshToken
deriving DecidableEq, Repr

/-- The `values(is_active=False, revoked_at=datetime.utcnow())` update applied
to a session row. -/
def markSessionRevoked (now : Nat) (s : UserSession) : UserSession :=
  { s with is_active := false, revoked_at := some now }

/-- The `values(is_active=False, revoked_at=datetime.utcnow())` update applied
to a refresh-token row. -/
def markTokenRevoked (now : Nat) (r : RefreshToken) : RefreshToken :=
  { r with is_active := false, revoked_at := some now }

/-- `SessionService.revoke_session` (`core/auth_service.py` 252-275 and
`core/auth_enhanced.py` 404-429, identical effect): mark the session revoked
and cascade the same update to every refresh token of that session. -/
def SessionService.revoke_session (db : AuthDB) (session_id now : Nat) : AuthDB :=
  { sessions := db.sessions.map fun s =>
      if s.session_id = session_id then markSessionRevoked now s else s,
    tokens := db.tokens.map fun r =>
      if r.session_id = session_id then markTokenRevoked now r else r }

/-- `SessionService.update_session_activity` (`core/auth_enhanced.py` 387-402):
set `last_activity` on the named session, and `ip_address` only when the
supplied ip is truthy (a non-empty string); nothing else is touched.  The
`core/auth_service.py` variant (240-250) is the `ip_address = none` case. -/
def SessionService.update_session_activity (db : AuthDB) (session_id now : Nat)
    (ip_address : Option String) : AuthDB :=
  { db with sessions := db.sessions.map fun s =>
      if s.session_id = session_id then
        { s with
          last_activity := now
          ip_address :=
            match ip_address with
            | some ip => if ip = "" then s.ip_address else some ip
            | none => s.ip_address }
      else s }

/-- The WHERE clause of `SessionService.get_active_session` (both variants):
a session is served only when still flagged active, unexpired and unrevoked. -/
def sessionActiveAt (s : UserSession) (now : Nat) : Bool :=
  s.is_active && decide (now < s.expires_at) && decide (s.revoked_at = none)

/-! ## Session creation with eviction (`core/auth_enhanced.py` 301-366) -/

/-- `AuthConfig.MAX_SESSIONS_PER_USER` in `core/auth_enhanced.py`. -/
def EnhancedAuthConfig.MAX_SESSIONS_PER_USER : Nat := 5

/-- `AuthConfig.SESSION_EXPIRE_DAYS` in `core/auth_enhanced.py`. -/
def EnhancedAuthConfig.SESSION_EXPIRE_DAYS : Nat := 7

/-- `AuthConfig.REFRESH_TOKEN_EXPIRE_DAYS` in `core/auth_enhanced.py`. -/
def EnhancedAuthConfig.REFRESH_TOKEN_EXPIRE_DAYS : Nat := 30

/-- The removal test of `_cleanup_old_sessions`: a session is discarded
outright when `expires_at < now` or it is no longer flagged active; the
complement is the "live" population subject to the cap. -/
def sessionLive (now : Nat) (s : UserSession) : Bool :=
  !(decide (s.expires_at < now)) && s.is_active

/-- Ordering used by the session query `ORDER BY created_at DESC`. -/
def createdDescOrder (a b : UserSession) : Prop :=
  b.created_at ≤ a.created_at

instance : DecidableRel createdDescOrder := fun a b => Nat.decLe b.created_at a.created_at

instance : IsTotal UserSession createdDescOrder :=
  ⟨fun a b => Nat.le_total b.created_at a.created_at⟩

instance : IsTrans UserSession createdDescOrder :=
  ⟨fun _ _ _ h1 h2 => Nat.le_trans h2 h1⟩

/-- The session query of `_cleanup_old_sessions`: all sessions of the user,
newest first. -/
def sessionsForUserDesc (db : AuthDB) (user_id : Nat) : List UserSession :=
  List.insertionSort createdDescOrder (db.sessions.filter fun s => s.user_id == user_id)

/-- The partition loop of `SessionService._cleanup_old_sessions`
(`core/auth_enhanced.py` 349-362), with `k` the number of sessions kept so
far: an expired or inactive session is removed; otherwise it is kept while
fewer than `cap` are kept; any further live session is removed. -/
def cleanupPartition (now cap : Nat) (k : Nat) :
    List UserSession → List UserSession × List UserSession
  | [] => ([], [])
  | s :: rest =>
    if s.expires_at < now || !s.is_active then
      let p := cleanupPartition now cap k rest
      (p.1, s :: p.2)
    else if k < cap then
      let p := cleanupPartition now cap (k + 1) rest
      (s :: p.1, p.2)
    else
      let p := cleanupPartition now cap k rest
      (p.1, s :: p.2)

/-- `SessionService._cleanup_old_sessions` (`core/auth_enhanced.py` 339-366):
partition the user's sessions (newest first) and revoke every session in the
removal part via `revoke_session`. -/
def SessionService.cleanup_old_sessions (db : AuthDB) (user_id now : Nat) : AuthDB :=
  let toRemove :=
    (cleanupPartition now EnhancedAuthConfig.MAX_SESSIONS_PER_USER 0
      (sessionsForUserDesc db user_id)).2
  toRemove.foldl (fun d s => SessionService.revoke_session d s.session_id now) db

/-- `SessionService.create_session` (`core/auth_enhanced.py` 307-337): run the
cleanup, then insert a fresh active session whose expiry is 30 days out under
`remember_me` and 7 days otherwise, with the user agent truncated to 500
characters.  The generated uuid is passed in as `new_session_id`. -/
def SessionService.create_session (db : AuthDB) (user_id : Nat)
    (ip_address : Option String) (user_agent : String) (remember_me : Bool)
    (new_session_id now : Nat) : AuthDB :=
  let db1 := SessionService.cleanup_old_sessions db user_id now
  let expires_at :=
    if remember_me then now + EnhancedAuthConfig.REFRESH_TOKEN_EXPIRE_DAYS * 86400
    else now + EnhancedAuthConfig.SESSION_EXPIRE_DAYS * 86400
  { db1 with sessions := db1.sessions ++
      [{ session_id := new_session_id
         user_id := user_id
         ip_address := ip_address
         user_agent := user_agent.take 500
         is_active := true
         created_at := now
         last_activity := now
         expires_at := expires_at
         revoked_at := none }] }

/-- Number of sessions of `user_id` that the cleanup's own liveness test
accepts at time `now`. -/
def activeSessionCount (db : AuthDB) (user_id now : Nat) : Nat :=
  (db.sessions.filter fun s => s.user_id == user_id && sessionLive now s).length

/-- A store holding exactly the configured cap of five live sessions for
user 1 (session ids 1-5, created at times 1-5), probing the cap boundary. -/
def fiveSessionDB : AuthDB :=
  { sessions :=
      [⟨1, 1, none, "", true, 1, 1, 1000, none⟩,
       ⟨2, 1, none, "", true, 2, 2, 1000, none⟩,
       ⟨3, 1, none, "", true, 3, 3, 1000, none⟩,
       ⟨4, 1, none, "", true, 4, 4, 1000, none⟩,
       ⟨5, 1, none, "", true, 5, 5, 1000, none⟩],
    tokens := [] }

/-! ## Refresh-token rotation (`core/auth_service.py` 278-383) -/

/-- The WHERE clause of the rotation lookup (`rotate_refresh_token`): a row
with the presented hash that is active, unexpired, unused and unrevoked. -/
def rtRedeemable (now h : Nat) (r : RefreshToken) : Bool :=
  decide (r.token_hash = h ∧ r.is_active = true ∧ now < r.expires_at ∧
    r.used_at = none ∧ r.revoked_at = none)

/-- `RefreshTokenService._handle_token_reuse` (`core/auth_service.py` 356-383):
look up any row carrying the presented hash; when one exists, revoke every
refresh token of its session and the session itself. -/
def RefreshTokenService.handle_token_reuse (db : AuthDB) (token_hash now : Nat) :
    AuthDB :=
  match db.tokens.find? (fun r => r.token_hash == token_hash) with
  | none => db
  | some compromised =>
    { sessions := db.sessions.map fun s =>
        if s.session_id = compromised.session_id then markSessionRevoked now s else s,
      tokens := db.tokens.map fun r =>
        if r.session_id = compromised.session_id then markTokenRevoked now r else r }

/-- The `old_refresh_token.used_at = utcnow; old_refresh_token.is_active =
False` update of `rotate_refresh_token`.  The source also writes
`old.replaced_by = new_refresh_token.id` before the new row is flushed, when
the new row's Python-side id is still `None`, so `replaced_by` stays unset. -/
def markTokenUsed (now : Nat) (r : RefreshToken) : RefreshToken :=
  { r with used_at := some now, is_active := false, replaced_by := none }

/-- The replacement row built by `rotate_refresh_token`: same user and
session as the old row, the new secret's hash and correlation id, and the
column defaults of `core/database.py` (`is_active = True`, `created_at =
utcnow`, `expires_at = utcnow + 60 days`). -/
def newRefreshRow (hashTok : Nat → Nat) (old : RefreshToken)
    (new_token new_id new_jti now : Nat) : RefreshToken :=
  { id := new_id
    user_id := old.user_id
    session_id := old.session_id
    token_hash := hashTok new_token
    jti := new_jti
    is_active := true
    created_at := now
    expires_at := now + 60 * 86400
    used_at := none
    replaced_by := none
    revoked_at := none }

/-- `RefreshTokenService.rotate_refresh_token` (`core/auth_service.py`
310-354).  `hashTok` abstracts `CryptoService.hash_token` (SHA-256);
`new_token`, `new_id` and `new_jti` stand for the freshly generated secret,
row uuid and correlation id.  On a redeemable match the old row is marked
used and inactive and a replacement row for the same session is inserted;
otherwise the presented hash is handed to the reuse handler and the call
fails. -/
def RefreshTokenService.rotate_refresh_token (hashTok : Nat → Nat) (db : AuthDB)
    (old_token new_token new_id new_jti now : Nat) : Option Nat × AuthDB :=
  match db.tokens.find? (rtRedeemable now (hashTok old_token)) with
  | none => (none, RefreshTokenService.handle_token_reuse db (hashTok old_token) now)
  | some old =>
    ( some new_token,
      { db with tokens :=
          (db.tokens.map fun r => if r.id = old.id then markTokenUsed now r else r) ++
          [newRefreshRow hashTok old new_token new_id new_jti now] } )

/-- Parameters of one rotation call made at some later point: the presented
secret and the fresh values for the replacement row. -/
structure RotArgs where
  old_token : Nat
  new_token : Nat
  new_id : Nat
  new_jti : Nat
  now : Nat
deriving DecidableEq, Repr

/-- A sequence of rotation calls applied to the store in order. -/
def applyRotations (hashTok : Nat → Nat) (db : AuthDB) (steps : List RotArgs) : AuthDB :=
  steps.foldl
    (fun d a =>
      (RefreshTokenService.rotate_refresh_token hashTok d
        a.old_token a.new_token a.new_id a.new_jti a.now).2)
    db

/-! ## Theorems -/

/-- The five type discriminator strings are pairwise distinct. -/
theorem TokenType.value_injective : ∀ a b : TokenType, a.value = b.value → a = b := by
  decide

/-- C3: a token created with type `a` is rejected with the invalid-token error
whenever type `b ≠ a` is expected, even though its signature, issuer, audience,
not-before and expiry would all pass (the check runs before `a`'s TTL is up). -/
theorem token_type_confusion_rejected (user_id : Nat) (a b : TokenType)
    (sid jti : Option Nat) (tc tv : Nat) (hab : a ≠ b)
    (hnbf : tc ≤ tv) (hfresh : tv < tc + tokenTTL a) :
    JWTService.verify_token (JWTService.create_token user_id a sid jti tc) b tv =
      .error .invalid := by
  have hty : a.value ≠ b.value := fun h => hab (TokenType.value_injective a b h)
  have h1 : ¬ (tv < tc) := by omega
  have h2 : ¬ (tc + tokenTTL a ≤ tv) := by omega
  simp [JWTService.verify_token, JWTService.create_token, h1, h2, hty]

/-- Witness for C3 at a concrete input. -/
theorem token_type_confusion_rejected_witness :
    JWTService.verify_token (JWTService.create_token 1 .access none none 0) .refresh 0 =
      .error .invalid :=
  token_type_confusion_rejected 1 .access .refresh none none 0 0 (by decide) (by decide)
    (by decide)

/-- C9: verifying a freshly created token with the type it was created for,
at any time from issuance up to (strictly before) the type's TTL, succeeds
and returns the payload, whose subject is the user id and whose type tag is
the requested type's discriminator. -/
theorem token_round_trip (user_id : Nat) (tt : TokenType) (sid jti : Option Nat)
    (tc tv : Nat) (hnbf : tc ≤ tv) (hfresh : tv < tc + tokenTTL tt) :
    JWTService.verify_token (JWTService.create_token user_id tt sid jti tc) tt tv =
      .ok (JWTService.create_token user_id tt sid jti tc).payload ∧
    (JWTService.create_token user_id tt sid jti tc).payload.sub = user_id ∧
    (JWTService.create_token user_id tt sid jti tc).payload.type = tt.value := by
  refine ⟨?_, rfl, rfl⟩
  have h1 : ¬ (tv < tc) := by omega
  have h2 : ¬ (tc + tokenTTL tt ≤ tv) := by omega
  simp [JWTService.verify_token, JWTService.create_token, h1, h2]

/-- Witness for C9 at a concrete input. -/
theorem token_round_trip_witness :
    JWTService.verify_token (JWTService.create_token 7 .access none none 0) .access 10 =
      .ok (JWTService.create_token 7 .access none none 0).payload ∧
    (JWTService.create_token 7 .access none none 0).payload.sub = 7 ∧
    (JWTService.create_token 7 .access none none 0).payload.type = TokenType.access.value :=
  token_round_trip 7 .access none none 0 10 (by decide) (by decide)

/-- C7 counterexample: `CryptoService.verify_password` of `core/auth_service.py`
catches only the mismatch exception, so an internal verification error (for
example argon2's `InvalidHashError` on a malformed stored hash) propagates to
the caller instead of returning `false`. -/
theorem verify_password_propagates_error :
    CryptoService.verify_password (.failure ("InvalidHashError")) =
      .error ("InvalidHashError") ∧
    ∀ b : Bool, CryptoService.verify_password (.failure ("InvalidHashError")) ≠ .ok b := by
  exact ⟨rfl, fun b h => Except.noConfusion h⟩

/-- C7 amended: the `core/auth_enhanced.py` and `core/security.py` variants of
`verify_password` are total and fail closed — every outcome yields a boolean,
and both mismatch and internal errors yield `false`; the `core/auth_service.py`
variant returns `false` on mismatch but lets other internal errors escape. -/
theorem verify_password_fail_closed (o : VerifyOutcome) :
    (∃ b : Bool, EnhancedCryptoService.verify_password o = .ok b) ∧
    (o ≠ .ok → EnhancedCryptoService.verify_password o = .ok false) ∧
    (∃ b : Bool, PasswordHasher.verify_password o = .ok b) ∧
    (o ≠ .ok → PasswordHasher.verify_password o = .ok false) ∧
    CryptoService.verify_password .mismatch = .ok false := by
  cases o <;>
    simp [EnhancedCryptoService.verify_password, PasswordHasher.verify_password,
      CryptoService.verify_password]

/-- Witness for C7's amended statement at a concrete erroring outcome. -/
theorem verify_password_fail_closed_witness :
    EnhancedCryptoService.verify_password (.failure ("boom")) = .ok false ∧
    PasswordHasher.verify_password (.failure ("boom")) = .ok false :=
  ⟨(verify_password_fail_closed (.failure ("boom"))).2.1 (by decide),
   (verify_password_fail_closed (.failure ("boom"))).2.2.2.1 (by decide)⟩

/-- C4: starting from an unlocked account with a zero counter, five
consecutive wrong-password attempts leave the counter at five and set the
lockout to 15 minutes past the fifth attempt; while the lockout is pending
even the correct password is rejected as locked, and after it elapses the
correct password succeeds; in general the counter only transitions to zero
through a successful authentication, and a pending `locked_until` blocks
authentication regardless of the counter. -/
theorem account_lockout (t1 t2 t3 t4 t5 : Nat) :
    ((wrongAttempts ⟨true, true, 0, none⟩ [t1, t2, t3, t4, t5]).failed_login_attempts = 5 ∧
      (wrongAttempts ⟨true, true, 0, none⟩ [t1, t2, t3, t4, t5]).locked_until =
        some (t5 + AuthServiceConfig.LOCKOUT_DURATION_MINUTES * 60)) ∧
    (∀ t6, t6 < t5 + AuthServiceConfig.LOCKOUT_DURATION_MINUTES * 60 →
      (AuthService.authenticate_user
        (wrongAttempts ⟨true, true, 0, none⟩ [t1, t2, t3, t4, t5]) true t6).1 =
        .accountLocked) ∧
    (∀ t7, t5 + AuthServiceConfig.LOCKOUT_DURATION_MINUTES * 60 ≤ t7 →
      (AuthService.authenticate_user
        (wrongAttempts ⟨true, true, 0, none⟩ [t1, t2, t3, t4, t5]) true t7).1 =
        .success) ∧
    (∀ u : UserAccount, ∀ pc : Bool, ∀ now : Nat,
      (AuthService.authenticate_user u pc now).2.failed_login_attempts = 0 →
      u.failed_login_attempts = 0 ∨ (AuthService.authenticate_user u pc now).1 = .success) ∧
    (∀ u : UserAccount, ∀ pc : Bool, ∀ now T : Nat,
      u.is_active = true → u.has_password_hash = true →
      u.locked_until = some T → now < T →
      (AuthService.authenticate_user u pc now).1 = .accountLocked) := by
  have hu5 : wrongAttempts ⟨true, true, 0, none⟩ [t1, t2, t3, t4, t5] =
      ⟨true, true, 5, some (t5 + AuthServiceConfig.LOCKOUT_DURATION_MINUTES * 60)⟩ := by
    simp [wrongAttempts, AuthService.authenticate_user, lockedCheck,
      AuthServiceConfig.MAX_FAILED_ATTEMPTS, AuthServiceConfig.LOCKOUT_DURATION_MINUTES]
  refine ⟨by rw [hu5]; exact ⟨rfl, rfl⟩, ?_, ?_, ?_, ?_⟩
  · intro t6 h6
    rw [hu5]
    simp [AuthService.authenticate_user, lockedCheck, h6]
  · intro t7 h7
    have h7' : ¬ (t7 < t5 + AuthServiceConfig.LOCKOUT_DURATION_MINUTES * 60) := by omega
    rw [hu5]
    simp [AuthService.authenticate_user, lockedCheck, h7']
  · intro u pc now h
    simp only [AuthService.authenticate_user] at h ⊢
    by_cases h1 : (!u.is_active || !u.has_password_hash) = true
    · rw [if_pos h1] at h
      exact Or.inl h
    · rw [if_neg h1] at h ⊢
      by_cases h2 : lockedCheck u.locked_until now = true
      · rw [if_pos h2] at h
        exact Or.inl h
      · rw [if_neg h2] at h ⊢
        by_cases h3 : (!pc) = true
        · rw [if_pos h3] at h
          simp only at h
          exact absurd h (by omega)
        · rw [if_neg h3]
          exact Or.inr rfl
  · intro u pc now T hact hhash hlock hnow
    simp [AuthService.authenticate_user, hact, hhash, lockedCheck, hlock, hnow]

/-- Witness for C4 at concrete attempt times. -/
theorem account_lockout_witness :
    (wrongAttempts ⟨true, true, 0, none⟩ [0, 0, 0, 0, 0]).failed_login_attempts = 5 ∧
    (AuthService.authenticate_user
      (wrongAttempts ⟨true, true, 0, none⟩ [0, 0, 0, 0, 0]) true 100).1 =
      .accountLocked ∧
    (AuthService.authenticate_user
      (wrongAttempts ⟨true, true, 0, none⟩ [0, 0, 0, 0, 0]) true 900).1 =
      .success :=
  ⟨(account_lockout 0 0 0 0 0).1.1,
   (account_lockout 0 0 0 0 0).2.1 100 (by decide),
   (account_lockout 0 0 0 0 0).2.2.1 900 (by decide)⟩

theorem pruneFront_keep {ws t : Int} (ts : List Int) (h : ¬ t < ws) :
    pruneFront ws (t :: ts) = t :: ts := by
  simp [pruneFront, h]

theorem pruneFront_drop {ws t : Int} (ts : List Int) (h : t < ws) :
    pruneFront ws (t :: ts) = pruneFront ws ts := by
  simp [pruneFront, h]

/-- C5 counterexample: the very first sliding-window check on a fresh key with
limit 2 / window 60 is allowed but reports `remaining = 2` — the count before
the current request is recorded — not 1 as the claim states. -/
theorem sliding_window_first_remaining_cex :
    (slidingWindowCheck [] ⟨2, 60⟩ 0).1.allowed = true ∧
    (slidingWindowCheck [] ⟨2, 60⟩ 0).1.remaining = 2 ∧
    (slidingWindowCheck [] ⟨2, 60⟩ 0).1.remaining ≠ 1 := by
  decide

/-- C5 amended: with limit 2 / window 60, checks 1 and 2 on a fresh key are
allowed and report remaining 2 and 1 (the limit minus the count of previously
recorded timestamps); check 3 inside the window is denied with remaining 0, a
positive retry-after of 60, and no timestamp recorded; a check after the
window has passed is allowed again.  In general a check admits iff the count
left after pruning timestamps older than `now - window` is below the limit,
and records `now` exactly when admitted. -/
theorem sliding_window_boundary (t1 t2 t3 t4 : Int)
    (h12 : t1 ≤ t2) (hw2 : t2 ≤ t1 + 60) (hw3 : t3 ≤ t1 + 60) (h4 : t2 + 60 < t4) :
    ((slidingWindowCheck [] ⟨2, 60⟩ t1).1.allowed = true ∧
      (slidingWindowCheck [] ⟨2, 60⟩ t1).1.remaining = 2 ∧
      (slidingWindowCheck [] ⟨2, 60⟩ t1).2 = [t1]) ∧
    ((slidingWindowCheck [t1] ⟨2, 60⟩ t2).1.allowed = true ∧
      (slidingWindowCheck [t1] ⟨2, 60⟩ t2).1.remaining = 1 ∧
      (slidingWindowCheck [t1] ⟨2, 60⟩ t2).2 = [t1, t2]) ∧
    ((slidingWindowCheck [t1, t2] ⟨2, 60⟩ t3).1.allowed = false ∧
      (slidingWindowCheck [t1, t2] ⟨2, 60⟩ t3).1.remaining = 0 ∧
      (slidingWindowCheck [t1, t2] ⟨2, 60⟩ t3).1.retry_after = some 60 ∧
      (slidingWindowCheck [t1, t2] ⟨2, 60⟩ t3).2 = [t1, t2]) ∧
    (slidingWindowCheck [t1, t2] ⟨2, 60⟩ t4).1.allowed = true ∧
    (∀ reqs : List Int, ∀ lim : RateLimit, ∀ now : Int,
      ((slidingWindowCheck reqs lim now).1.allowed = true ↔
        (pruneFront (now - lim.window_seconds) reqs).length < lim.requests) ∧
      ((slidingWindowCheck reqs lim now).1.allowed = true →
        (slidingWindowCheck reqs lim now).2 =
          pruneFront (now - lim.window_seconds) reqs ++ [now]) ∧
      ((slidingWindowCheck reqs lim now).1.allowed = false →
        (slidingWindowCheck reqs lim now).2 =
          pruneFront (now - lim.window_seconds) reqs)) := by
  have e1 : pruneFront (t1 - 60) [t1] = [t1] := pruneFront_keep _ (by omega)
  have e2 : pruneFront (t2 - 60) [t1] = [t1] := pruneFront_keep _ (by omega)
  have e3 : pruneFront (t3 - 60) [t1, t2] = [t1, t2] := pruneFront_keep _ (by omega)
  have e4 : pruneFront (t4 - 60) [t1, t2] = [] := by
    rw [pruneFront_drop _ (by omega), pruneFront_drop _ (by omega)]
    rfl
  refine ⟨?_, ?_, ?_, ?_, ?_⟩
  · simp [slidingWindowCheck, pruneFront]
  · simp [slidingWindowCheck, e2]
  · simp [slidingWindowCheck, e3]
  · simp [slidingWindowCheck, e4]
  · intro reqs lim now
    refine ⟨?_, ?_, ?_⟩
    · simp [slidingWindowCheck]
    · intro h
      have hp : (pruneFront (now - lim.window_seconds) reqs).length < lim.requests := by
        simpa [slidingWindowCheck] using h
      simp [slidingWindowCheck, hp]
    · intro h
      have hp : ¬ (pruneFront (now - lim.window_seconds) reqs).length < lim.requests := by
        simpa [slidingWindowCheck] using h
      simp [slidingWindowCheck, hp]

/-- Witness for C5's amended statement at concrete times 0, 1, 2 and 100. -/
theorem sliding_window_boundary_witness :
    (slidingWindowCheck [(1 : Int), 2] ⟨2, 60⟩ 2).1.allowed = false ∧
    (slidingWindowCheck [(1 : Int), 2] ⟨2, 60⟩ 2).1.retry_after = some 60 ∧
    (slidingWindowCheck [(1 : Int), 2] ⟨2, 60⟩ 100).1.allowed = true :=
  ⟨(sliding_window_boundary 1 2 2 100 (by decide) (by decide) (by decide)
      (by decide)).2.2.1.1,
   (sliding_window_boundary 1 2 2 100 (by decide) (by decide) (by decide)
      (by decide)).2.2.1.2.2.1,
   (sliding_window_boundary 1 2 2 100 (by decide) (by decide) (by decide)
      (by decide)).2.2.2.1⟩

/-- C6 counterexample: with Redis configured (`use_redis` true) but the server
unreachable, `connect` swallows the failure, `use_redis` stays set, and the
check converts the "Redis not connected" exception to the fail-open result —
it does not fall back to the memory backend, which on the same inputs would
deny and whose state is left untouched. -/
theorem rate_limit_no_memory_fallback_cex :
    (RateLimitManager.initRedis (RateLimitManager.construct true true) false).use_redis
      = true ∧
    (RateLimitManager.check
        (RateLimitManager.initRedis (RateLimitManager.construct true true) false)
        (.error ("connection refused")) [0, 0] ⟨2, 60⟩ 0).1.allowed = true ∧
    (slidingWindowCheck [0, 0] ⟨2, 60⟩ 0).1.allowed = false ∧
    (RateLimitManager.check
        (RateLimitManager.initRedis (RateLimitManager.construct true true) false)
        (.error ("connection refused")) [0, 0] ⟨2, 60⟩ 0).2 = [0, 0] := by
  decide

/-- C6 amended: `check_rate_limit` uses the Redis backend whenever it was
configured at construction; the memory backend serves only when Redis was not
configured (missing url or missing library); and every error on the Redis
path — including the unreachable-server case, which a failed `connect` leaves
in place with `use_redis` still set — produces the fail-open result with
`allowed = true` instead of an exception or a memory fallback. -/
theorem rate_limit_backend_policy (st : ManagerState)
    (behavior : Except String RateLimitResult) (mem : List Int)
    (lim : RateLimit) (now : Int) :
    (∀ r, st.use_redis = true → st.has_redis_limiter = true →
      st.redis_connected = true → behavior = .ok r →
      RateLimitManager.check st behavior mem lim now = (r, mem)) ∧
    (st.use_redis = false →
      RateLimitManager.check st behavior mem lim now = slidingWindowCheck mem lim now) ∧
    (st.use_redis = true → st.has_redis_limiter = true → st.redis_connected = false →
      RateLimitManager.check st behavior mem lim now = (failOpenResult lim now, mem) ∧
      (RateLimitManager.check st behavior mem lim now).1.allowed = true) ∧
    (∀ e, st.use_redis = true → st.has_redis_limiter = true → behavior = .error e →
      (RateLimitManager.check st behavior mem lim now).1.allowed = true) ∧
    (∀ url avail : Bool,
      (RateLimitManager.construct url avail).use_redis = (url && avail) ∧
      (RateLimitManager.construct url avail).redis_connected = false) ∧
    (∀ ok : Bool, st.use_redis = true → st.has_redis_limiter = true →
      (RateLimitManager.initRedis st ok).use_redis = true ∧
      (RateLimitManager.initRedis st ok).redis_connected = ok) := by
  refine ⟨?_, ?_, ?_, ?_, ?_, ?_⟩
  · intro r hu hh hc hb
    simp [RateLimitManager.check, redisCheck, hu, hh, hc, hb]
  · intro hu
    simp [RateLimitManager.check, hu]
  · intro hu hh hc
    constructor
    · simp [RateLimitManager.check, redisCheck, hu, hh, hc]
    · simp [RateLimitManager.check, redisCheck, hu, hh, hc, failOpenResult]
  · intro e hu hh hb
    cases hc : st.redis_connected
    · simp [RateLimitManager.check, redisCheck, hu, hh, hc, failOpenResult]
    · simp [RateLimitManager.check, redisCheck, hu, hh, hc, hb, failOpenResult]
  · intro url avail
    exact ⟨rfl, rfl⟩
  · intro ok hu hh
    simp [RateLimitManager.initRedis, hu, hh]

/-- Witness for C6's amended statement: a connected-error state fails open. -/
theorem rate_limit_backend_policy_witness :
    (RateLimitManager.check ⟨true, true, false⟩ (.error ("boom2")) [] ⟨2, 60⟩ 0).1.allowed
      = true :=
  ((rate_limit_backend_policy ⟨true, true, false⟩ (.error ("boom2")) [] ⟨2, 60⟩ 0).2.2.1
    rfl rfl rfl).2

/-- C10: an activity update leaves the refresh-token table unchanged and maps
each session row to a row with identical `session_id`, `user_id`, `is_active`,
`created_at`, `expires_at` and `revoked_at`; rows other than the named session
are completely unchanged, and the active-session test `sessionActiveAt` gives
the same verdict at every time — so an activity update can never reactivate a
revoked or expired session. -/
theorem update_activity_frame (db : AuthDB) (sid now : Nat) (ip : Option String) :
    (SessionService.update_session_activity db sid now ip).tokens = db.tokens ∧
    List.Forall₂ (fun s s' : UserSession =>
        s'.session_id = s.session_id ∧ s'.user_id = s.user_id ∧
        s'.is_active = s.is_active ∧ s'.created_at = s.created_at ∧
        s'.expires_at = s.expires_at ∧ s'.revoked_at = s.revoked_at ∧
        (s.session_id ≠ sid → s' = s) ∧
        (∀ t, sessionActiveAt s' t = sessionActiveAt s t))
      db.sessions (SessionService.update_session_activity db sid now ip).sessions := by
  refine ⟨rfl, ?_⟩
  simp only [SessionService.update_session_activity]
  induction db.sessions with
  | nil => exact List.Forall₂.nil
  | cons s rest ih =>
    simp only [List.map_cons]
    refine List.Forall₂.cons ?_ ih
    by_cases hs : s.session_id = sid <;> simp [hs, sessionActiveAt]

/-- Witness for C10 at a concrete store. -/
theorem update_activity_frame_witness :
    (SessionService.update_session_activity
        ⟨[⟨1, 1, none, "", true, 0, 0, 100, none⟩], []⟩ 1 5 none).tokens =
      (⟨[⟨1, 1, none, "", true, 0, 0, 100, none⟩], []⟩ : AuthDB).tokens :=
  (update_activity_frame ⟨[⟨1, 1, none, "", true, 0, 0, 100, none⟩], []⟩ 1 5 none).1

theorem rtRedeemable_spec {now h : Nat} {r : RefreshToken}
    (hr : rtRedeemable now h r = true) :
    r.token_hash = h ∧ r.is_active = true ∧ now < r.expires_at ∧
      r.used_at = none ∧ r.revoked_at = none := by
  simpa [rtRedeemable] using hr

theorem revokeMapTokens_dead {l : List RefreshToken} {csid now : Nat} :
    ∀ r' ∈ l.map fun r => if r.session_id = csid then markTokenRevoked now r else r,
      r'.session_id = csid → r'.is_active = false ∧ r'.revoked_at = some now := by
  intro r' h hs
  simp only [List.mem_map] at h
  obtain ⟨x, _, rfl⟩ := h
  by_cases hxs : x.session_id = csid
  · simp [hxs, markTokenRevoked]
  · rw [if_neg hxs] at hs
    exact absurd hs hxs

theorem revokeMapSessions_dead {l : List UserSession} {csid now : Nat} :
    ∀ s' ∈ l.map fun s => if s.session_id = csid then markSessionRevoked now s else s,
      s'.session_id = csid → s'.is_active = false ∧ s'.revoked_at = some now := by
  intro s' h hs
  simp only [List.mem_map] at h
  obtain ⟨x, _, rfl⟩ := h
  by_cases hxs : x.session_id = csid
  · simp [hxs, markSessionRevoked]
  · rw [if_neg hxs] at hs
    exact absurd hs hxs

/-- One rotation call cannot resurrect a refresh token of a session all of
whose tokens are inactive: a replacement row is only ever created for the
session of a row that was found active. -/
theorem rotate_preserves_dead {hashTok : Nat → Nat} {db : AuthDB} {sid : Nat}
    (hdead : ∀ r ∈ db.tokens, r.session_id = sid → r.is_active = false)
    (tok nt ni nj now : Nat) :
    ∀ r' ∈ (RefreshTokenService.rotate_refresh_token hashTok db tok nt ni nj now).2.tokens,
      r'.session_id = sid → r'.is_active = false := by
  intro r' hr' hsid
  unfold RefreshTokenService.rotate_refresh_token at hr'
  cases hfind : db.tokens.find? (rtRedeemable now (hashTok tok)) with
  | none =>
    rw [hfind] at hr'
    simp only at hr'
    unfold RefreshTokenService.handle_token_reuse at hr'
    cases hc : db.tokens.find? (fun r => r.token_hash == hashTok tok) with
    | none =>
      rw [hc] at hr'
      exact hdead r' hr' hsid
    | some c =>
      rw [hc] at hr'
      simp only [List.mem_map] at hr'
      obtain ⟨x, hx, rfl⟩ := hr'
      by_cases hxs : x.session_id = c.session_id
      · simp [hxs, markTokenRevoked]
      · rw [if_neg hxs] at hsid ⊢
        exact hdead x hx hsid
  | some old =>
    rw [hfind] at hr'
    simp only [List.mem_append, List.mem_map] at hr'
    rcases hr' with ⟨x, hx, rfl⟩ | hnew
    · by_cases hid : x.id = old.id
      · simp [hid, markTokenUsed]
      · rw [if_neg hid] at hsid ⊢
        exact hdead x hx hsid
    · have hold : old ∈ db.tokens := List.mem_of_find?_eq_some hfind
      have hspec := rtRedeemable_spec (List.find?_some hfind)
      have : old.session_id = sid := by
        simp only [List.mem_singleton] at hnew
        subst hnew
        simpa [newRefreshRow] using hsid
      exact absurd (hdead old hold this) (by simp [hspec.2.1])

/-- Any sequence of rotation calls preserves the all-tokens-inactive state of
a session. -/
theorem applyRotations_preserves_dead {hashTok : Nat → Nat} {sid : Nat}
    (steps : List RotArgs) :
    ∀ db : AuthDB, (∀ r ∈ db.tokens, r.session_id = sid → r.is_active = false) →
      ∀ r' ∈ (applyRotations hashTok db steps).tokens,
        r'.session_id = sid → r'.is_active = false := by
  induction steps with
  | nil =>
    intro db hdead
    simpa [applyRotations] using hdead
  | cons a rest ih =>
    intro db hdead
    have h1 := @rotate_preserves_dead hashTok db sid hdead
      a.old_token a.new_token a.new_id a.new_jti a.now
    simpa [applyRotations] using
      ih (RefreshTokenService.rotate_refresh_token hashTok db
        a.old_token a.new_token a.new_id a.new_jti a.now).2 h1

/-- When every row carrying the presented hash belongs to a session whose
tokens are all inactive, the rotation lookup finds nothing redeemable and the
call fails. -/
theorem rotate_dead_session_fails {hashTok : Nat → Nat} {db : AuthDB} {sid : Nat}
    (hdead : ∀ r ∈ db.tokens, r.session_id = sid → r.is_active = false)
    (tok : Nat) (hall : ∀ r ∈ db.tokens, r.token_hash = hashTok tok → r.session_id = sid)
    (nt ni nj now : Nat) :
    (RefreshTokenService.rotate_refresh_token hashTok db tok nt ni nj now).1 = none := by
  have hnone : db.tokens.find? (rtRedeemable now (hashTok tok)) = none := by
    rw [List.find?_eq_none]
    intro y hy hpy
    have hspec := rtRedeemable_spec hpy
    have hsid := hall y hy hspec.1
    have := hdead y hy hsid
    rw [hspec.2.1] at this
    exact Bool.noConfusion this
  simp [RefreshTokenService.rotate_refresh_token, hnone]

/-- C8: `revoke_session` flags the session and every refresh token chained to
it as revoked (inactive with `revoked_at` set), and the state is permanent:
after any sequence of later rotation calls every token of the session is
still inactive, and a rotation presenting a secret all of whose hash-matching
rows belong to the revoked session fails. -/
theorem revoke_session_cascades (hashTok : Nat → Nat) (db : AuthDB) (sid now : Nat)
    (steps : List RotArgs) :
    (∀ r ∈ (SessionService.revoke_session db sid now).tokens,
      r.session_id = sid → r.is_active = false ∧ r.revoked_at = some now) ∧
    (∀ s ∈ (SessionService.revoke_session db sid now).sessions,
      s.session_id = sid → s.is_active = false ∧ s.revoked_at = some now) ∧
    (∀ r ∈ (applyRotations hashTok (SessionService.revoke_session db sid now) steps).tokens,
      r.session_id = sid → r.is_active = false) ∧
    (∀ tok nt ni nj t,
      (∀ r ∈ (applyRotations hashTok (SessionService.revoke_session db sid now) steps).tokens,
        r.token_hash = hashTok tok → r.session_id = sid) →
      (RefreshTokenService.rotate_refresh_token hashTok
        (applyRotations hashTok (SessionService.revoke_session db sid now) steps)
        tok nt ni nj t).1 = none) := by
  have hdead0 : ∀ r ∈ (SessionService.revoke_session db sid now).tokens,
      r.session_id = sid → r.is_active = false ∧ r.revoked_at = some now :=
    revokeMapTokens_dead
  have hdead : ∀ r ∈ (SessionService.revoke_session db sid now).tokens,
      r.session_id = sid → r.is_active = false :=
    fun r hr hs => (hdead0 r hr hs).1
  refine ⟨hdead0, revokeMapSessions_dead, applyRotations_preserves_dead steps _ hdead, ?_⟩
  intro tok nt ni nj t hall
  exact rotate_dead_session_fails (applyRotations_preserves_dead steps _ hdead) tok hall nt ni nj t

/-- Witness for C8: in a one-session store, after revocation the chained
token cannot be rotated. -/
theorem revoke_session_cascades_witness :
    (RefreshTokenService.rotate_refresh_token (fun t => t)
      (applyRotations (fun t => t)
        (SessionService.revoke_session
          ⟨[⟨1, 1, none, "", true, 0, 0, 1000, none⟩],
           [⟨1, 1, 1, 10, 0, true, 0, 1000, none, none, none⟩]⟩ 1 50) [])
      10 20 2 3 60).1 = none :=
  (revoke_session_cascades (fun t => t)
      ⟨[⟨1, 1, none, "", true, 0, 0, 1000, none⟩],
       [⟨1, 1, 1, 10, 0, true, 0, 1000, none, none, none⟩]⟩ 1 50 []).2.2.2
    10 20 2 3 60 (by decide)

/-- C1: refresh tokens are single-use with reuse detection.  Hypotheses: the
presented secret `t` currently resolves to a redeemable row `r`, the stored
token hashes are pairwise distinct (each is the digest of a distinct 64-byte
secret), and the freshly generated secret collides with no stored hash.  Then
the rotation succeeds; presenting the same secret again fails, and the reuse
handler revokes every refresh token of `r`'s session — including the
replacement row just issued — and the session itself; consequently any secret
whose hash-matching rows lie in that session (a third, otherwise still-valid
token of the session) is rejected afterwards.  The last conjunct is the
general reuse rule: whenever no redeemable row carries a presented hash but
some row does, rotation fails and that row's entire session chain and session
are revoked. -/
theorem refresh_token_single_use (hashTok : Nat → Nat) (db : AuthDB)
    (t new_token new_id new_jti now : Nat) (r : RefreshToken)
    (hfind : db.tokens.find? (rtRedeemable now (hashTok t)) = some r)
    (hNodup : (db.tokens.map fun x => x.token_hash).Nodup)
    (hfresh : ∀ x ∈ db.tokens, x.token_hash ≠ hashTok new_token) :
    (RefreshTokenService.rotate_refresh_token hashTok db t new_token new_id new_jti now).1
      = some new_token ∧
    (∀ nt₂ ni₂ nj₂ now₂,
      (RefreshTokenService.rotate_refresh_token hashTok
        (RefreshTokenService.rotate_refresh_token hashTok db
          t new_token new_id new_jti now).2 t nt₂ ni₂ nj₂ now₂).1 = none ∧
      (∀ r' ∈ (RefreshTokenService.rotate_refresh_token hashTok
          (RefreshTokenService.rotate_refresh_token hashTok db
            t new_token new_id new_jti now).2 t nt₂ ni₂ nj₂ now₂).2.tokens,
        r'.session_id = r.session_id → r'.is_active = false ∧ r'.revoked_at = some now₂) ∧
      (∀ s ∈ (RefreshTokenService.rotate_refresh_token hashTok
          (RefreshTokenService.rotate_refresh_token hashTok db
            t new_token new_id new_jti now).2 t nt₂ ni₂ nj₂ now₂).2.sessions,
        s.session_id = r.session_id → s.is_active = false ∧ s.revoked_at = some now₂) ∧
      (∀ t₃ r₃, r₃ ∈ db.tokens → r₃.token_hash = hashTok t₃ →
        r₃.session_id = r.session_id →
        ∀ nt₃ ni₃ nj₃ now₃,
          (RefreshTokenService.rotate_refresh_token hashTok
            (RefreshTokenService.rotate_refresh_token hashTok
              (RefreshTokenService.rotate_refresh_token hashTok db
                t new_token new_id new_jti now).2 t nt₂ ni₂ nj₂ now₂).2
            t₃ nt₃ ni₃ nj₃ now₃).1 = none)) ∧
    (∀ db' : AuthDB, ∀ t' nt ni nj n' : Nat,
      db'.tokens.find? (rtRedeemable n' (hashTok t')) = none →
      ∀ cr, db'.tokens.find? (fun x => x.token_hash == hashTok t') = some cr →
        (RefreshTokenService.rotate_refresh_token hashTok db' t' nt ni nj n').1 = none ∧
        (∀ r' ∈ (RefreshTokenService.rotate_refresh_token hashTok
            db' t' nt ni nj n').2.tokens,
          r'.session_id = cr.session_id → r'.is_active = false ∧ r'.revoked_at = some n') ∧
        (∀ s ∈ (RefreshTokenService.rotate_refresh_token hashTok
            db' t' nt ni nj n').2.sessions,
          s.session_id = cr.session_id → s.is_active = false ∧ s.revoked_at = some n')) := by
  have hr_mem : r ∈ db.tokens := List.mem_of_find?_eq_some hfind
  have hr_spec := rtRedeemable_spec (List.find?_some hfind)
  have hinj := List.inj_on_of_nodup_map hNodup
  have general : ∀ db' : AuthDB, ∀ t' nt ni nj n' : Nat,
      db'.tokens.find? (rtRedeemable n' (hashTok t')) = none →
      ∀ cr, db'.tokens.find? (fun x => x.token_hash == hashTok t') = some cr →
        (RefreshTokenService.rotate_refresh_token hashTok db' t' nt ni nj n').1 = none ∧
        (∀ r' ∈ (RefreshTokenService.rotate_refresh_token hashTok
            db' t' nt ni nj n').2.tokens,
          r'.session_id = cr.session_id → r'.is_active = false ∧ r'.revoked_at = some n') ∧
        (∀ s ∈ (RefreshTokenService.rotate_refresh_token hashTok
            db' t' nt ni nj n').2.sessions,
          s.session_id = cr.session_id → s.is_active = false ∧ s.revoked_at = some n') := by
    intro db' t' nt ni nj n' hn cr hcr
    refine ⟨?_, ?_, ?_⟩
    · simp [RefreshTokenService.rotate_refresh_token, hn]
    · simp only [RefreshTokenService.rotate_refresh_token, hn,
        RefreshTokenService.handle_token_reuse, hcr]
      exact revokeMapTokens_dead
    · simp only [RefreshTokenService.rotate_refresh_token, hn,
        RefreshTokenService.handle_token_reuse, hcr]
      exact revokeMapSessions_dead
  -- the persisted token table after the successful rotation
  have hfind₂ : ∀ now₂ : Nat,
      ((db.tokens.map fun x => if x.id = r.id then markTokenUsed now x else x) ++
        [newRefreshRow hashTok r new_token new_id new_jti now]).find?
          (rtRedeemable now₂ (hashTok t)) = none := by
    intro now₂
    rw [List.find?_eq_none]
    intro y hy hpy
    have hspec := rtRedeemable_spec hpy
    rcases List.mem_append.mp hy with hy1 | hy2
    · obtain ⟨x, hx, rfl⟩ := List.mem_map.mp hy1
      by_cases hid : x.id = r.id
      · rw [if_pos hid] at hspec
        simp [markTokenUsed] at hspec
      · rw [if_neg hid] at hspec
        exact hid (congrArg RefreshToken.id (hinj hx hr_mem (hspec.1.trans hr_spec.1.symm)))
    · simp only [List.mem_singleton] at hy2
      subst hy2
      exact hfresh r hr_mem (hr_spec.1.trans hspec.1.symm)
  have hcsome :
      ((db.tokens.map fun x => if x.id = r.id then markTokenUsed now x else x) ++
        [newRefreshRow hashTok r new_token new_id new_jti now]).find?
          (fun x => x.token_hash == hashTok t) ≠ none := by
    intro hn
    have hmem : markTokenUsed now r ∈
        (db.tokens.map fun x => if x.id = r.id then markTokenUsed now x else x) ++
          [newRefreshRow hashTok r new_token new_id new_jti now] :=
      List.mem_append_left _ (List.mem_map.mpr ⟨r, hr_mem, by rw [if_pos rfl]⟩)
    have := List.find?_eq_none.mp hn _ hmem
    exact this (by simp [markTokenUsed, hr_spec.1])
  have hcsid : ∀ c : RefreshToken,
      ((db.tokens.map fun x => if x.id = r.id then markTokenUsed now x else x) ++
        [newRefreshRow hashTok r new_token new_id new_jti now]).find?
          (fun x => x.token_hash == hashTok t) = some c →
      c.session_id = r.session_id := by
    intro c hc
    have hcp : c.token_hash = hashTok t := by simpa using List.find?_some hc
    rcases List.mem_append.mp (List.mem_of_find?_eq_some hc) with h1 | h2
    · obtain ⟨x, hx, rfl⟩ := List.mem_map.mp h1
      by_cases hid : x.id = r.id
      · rw [if_pos hid] at hcp ⊢
        have hxr : x = r := hinj hx hr_mem (hcp.trans hr_spec.1.symm)
        rw [hxr]
        rfl
      · rw [if_neg hid] at hcp ⊢
        have hxr : x = r := hinj hx hr_mem (hcp.trans hr_spec.1.symm)
        rw [hxr]
    · simp only [List.mem_singleton] at h2
      subst h2
      exact absurd (hr_spec.1.trans hcp.symm) (hfresh r hr_mem)
  refine ⟨?_, ?_, general⟩
  · simp [RefreshTokenService.rotate_refresh_token, hfind]
  intro nt₂ ni₂ nj₂ now₂
  simp only [RefreshTokenService.rotate_refresh_token, hfind]
  rw [hfind₂ now₂]
  simp only [RefreshTokenService.handle_token_reuse]
  cases hc : ((db.tokens.map fun x => if x.id = r.id then markTokenUsed now x else x) ++
      [newRefreshRow hashTok r new_token new_id new_jti now]).find?
        (fun x => x.token_hash == hashTok t) with
  | none => exact absurd hc hcsome
  | some c =>
    have hcs := hcsid c hc
    refine ⟨by trivial, ?_, ?_, ?_⟩
    · intro r' hr' hrs
      exact revokeMapTokens_dead r' hr' (by rw [hcs]; exact hrs)
    · intro s hs hss
      exact revokeMapSessions_dead s hs (by rw [hcs]; exact hss)
    · intro t₃ r₃ hr₃m hr₃h hr₃s nt₃ ni₃ nj₃ now₃
      have hn₃ :
          (((db.tokens.map fun x => if x.id = r.id then markTokenUsed now x else x) ++
            [newRefreshRow hashTok r new_token new_id new_jti now]).map fun x =>
              if x.session_id = c.session_id then markTokenRevoked now₂ x else x).find?
            (rtRedeemable now₃ (hashTok t₃)) = none := by
        rw [List.find?_eq_none]
        intro y hy hpy
        have hspec := rtRedeemable_spec hpy
        obtain ⟨x, hx, rfl⟩ := List.mem_map.mp hy
        by_cases hxs : x.session_id = c.session_id
        · rw [if_pos hxs] at hspec
          simp [markTokenRevoked] at hspec
        · rw [if_neg hxs] at hspec
          rcases List.mem_append.mp hx with h1 | h2
          · obtain ⟨z, hz, rfl⟩ := List.mem_map.mp h1
            have hzh : z.token_hash = hashTok t₃ := by
              by_cases hid : z.id = r.id
              · rw [if_pos hid] at hspec
                exact hspec.1
              · rw [if_neg hid] at hspec
                exact hspec.1
            have hzr : z = r₃ := hinj hz hr₃m (hzh.trans hr₃h.symm)
            apply hxs
            rw [hcs]
            by_cases hid : z.id = r.id
            · rw [if_pos hid]
              show z.session_id = r.session_id
              rw [hzr]
              exact hr₃s
            · rw [if_neg hid, hzr]
              exact hr₃s
          · simp only [List.mem_singleton] at h2
            subst h2
            have hnewh : hashTok new_token = hashTok t₃ := hspec.1
            exact absurd (hr₃h.trans hnewh.symm) (hfresh r₃ hr₃m)
      simp only [RefreshTokenService.rotate_refresh_token, hn₃]

/-- Witness for C1: a concrete one-session store with one redeemable token;
after its rotation the same secret is rejected. -/
theorem refresh_token_single_use_witness :
    (RefreshTokenService.rotate_refresh_token (fun x => x)
      ⟨[⟨1, 1, none, "", true, 0, 0, 1000, none⟩],
       [⟨1, 1, 1, 10, 0, true, 0, 1000, none, none, none⟩]⟩
      10 20 2 3 5).1 = some 20 ∧
    (RefreshTokenService.rotate_refresh_token (fun x => x)
      (RefreshTokenService.rotate_refresh_token (fun x => x)
        ⟨[⟨1, 1, none, "", true, 0, 0, 1000, none⟩],
         [⟨1, 1, 1, 10, 0, true, 0, 1000, none, none, none⟩]⟩
        10 20 2 3 5).2 10 30 4 5 6).1 = none :=
  ⟨(refresh_token_single_use (fun x => x)
      ⟨[⟨1, 1, none, "", true, 0, 0, 1000, none⟩],
       [⟨1, 1, 1, 10, 0, true, 0, 1000, none, none, none⟩]⟩
      10 20 2 3 5 ⟨1, 1, 1, 10, 0, true, 0, 1000, none, none, none⟩
      (by decide) (by decide) (by decide)).1,
   ((refresh_token_single_use (fun x => x)
      ⟨[⟨1, 1, none, "", true, 0, 0, 1000, none⟩],
       [⟨1, 1, 1, 10, 0, true, 0, 1000, none, none, none⟩]⟩
      10 20 2 3 5 ⟨1, 1, 1, 10, 0, true, 0, 1000, none, none, none⟩
      (by decide) (by decide) (by decide)).2.1 30 4 5 6).1⟩

theorem sessionLive_eq (now : Nat) (s : UserSession) :
    sessionLive now s = !(decide (s.expires_at < now) || !s.is_active) := by
  simp [sessionLive, Bool.not_or, Bool.not_not]

/-- The kept sessions are the first `cap - k` live ones, in list order. -/
theorem cleanupPartition_keep (now cap : Nat) :
    ∀ (l : List UserSession) (k : Nat),
      (cleanupPartition now cap k l).1 =
        (l.filter (sessionLive now)).take (cap - k) := by
  intro l
  induction l with
  | nil => intro k; simp [cleanupPartition]
  | cons s rest ih =>
    intro k
    by_cases hcond : (decide (s.expires_at < now) || !s.is_active) = true
    · have hlive : sessionLive now s = false := by
        rw [sessionLive_eq, hcond]
        rfl
      simp only [cleanupPartition, if_pos hcond, List.filter_cons, hlive]
      simpa using ih k
    · have hlive : sessionLive now s = true := by
        rw [sessionLive_eq, Bool.eq_false_iff.mpr hcond]
        rfl
      by_cases hk : k < cap
      · simp only [cleanupPartition, if_neg hcond, if_pos hk, List.filter_cons, hlive]
        rw [ih (k + 1)]
        have harith : cap - k = (cap - (k + 1)) + 1 := by omega
        simp [harith]
      · simp only [cleanupPartition, if_neg hcond, if_neg hk, List.filter_cons, hlive]
        rw [ih k]
        have h0 : cap - k = 0 := by omega
        simp [h0]

/-- The removed sessions' live part is exactly the tail of the live list past
the first `cap - k`. -/
theorem cleanupPartition_remove_live (now cap : Nat) :
    ∀ (l : List UserSession) (k : Nat),
      (cleanupPartition now cap k l).2.filter (sessionLive now) =
        (l.filter (sessionLive now)).drop (cap - k) := by
  intro l
  induction l with
  | nil => intro k; simp [cleanupPartition]
  | cons s rest ih =>
    intro k
    by_cases hcond : (decide (s.expires_at < now) || !s.is_active) = true
    · have hlive : sessionLive now s = false := by
        rw [sessionLive_eq, hcond]
        rfl
      simp only [cleanupPartition, if_pos hcond, List.filter_cons, hlive]
      simpa using ih k
    · have hlive : sessionLive now s = true := by
        rw [sessionLive_eq, Bool.eq_false_iff.mpr hcond]
        rfl
      by_cases hk : k < cap
      · simp only [cleanupPartition, if_neg hcond, if_pos hk, List.filter_cons, hlive]
        rw [ih (k + 1)]
        have harith : cap - k = (cap - (k + 1)) + 1 := by omega
        simp [harith]
      · simp only [cleanupPartition, if_neg hcond, if_neg hk, List.filter_cons, hlive]
        rw [ih k]
        have h0 : cap - k = 0 := by omega
        simp [h0]

/-- The partition loop is a partition: keep and remove together permute the
input. -/
theorem cleanupPartition_perm (now cap : Nat) :
    ∀ (l : List UserSession) (k : Nat),
      List.Perm ((cleanupPartition now cap k l).1 ++ (cleanupPartition now cap k l).2) l := by
  intro l
  induction l with
  | nil => intro k; exact List.Perm.refl _
  | cons s rest ih =>
    intro k
    by_cases hcond : (decide (s.expires_at < now) || !s.is_active) = true
    · simp only [cleanupPartition, if_pos hcond]
      exact List.perm_middle.trans ((ih k).cons s)
    · by_cases hk : k < cap
      · simp only [cleanupPartition, if_neg hcond, if_pos hk, List.cons_append]
        exact (ih (k + 1)).cons s
      · simp only [cleanupPartition, if_neg hcond, if_neg hk]
        exact List.perm_middle.trans ((ih k).cons s)

/-- Everything the partition keeps is live. -/
theorem cleanupPartition_keep_live {now cap k : Nat} {l : List UserSession} :
    ∀ a ∈ (cleanupPartition now cap k l).1, sessionLive now a = true := by
  intro a ha
  rw [cleanupPartition_keep] at ha
  exact List.of_mem_filter (List.mem_of_mem_take ha)

/-- Folding `revoke_session` over a removal list marks exactly the sessions
whose id occurs in the list. -/
theorem foldl_revoke_sessions (now : Nat) :
    ∀ (rem : List UserSession) (db : AuthDB),
      (rem.foldl (fun d s => SessionService.revoke_session d s.session_id now) db).sessions
        = db.sessions.map fun s =>
            if s.session_id ∈ rem.map (fun x => x.session_id)
            then markSessionRevoked now s else s := by
  intro rem
  induction rem with
  | nil =>
    intro db
    simp
  | cons a tl ih =>
    intro db
    rw [List.foldl_cons, ih]
    simp only [SessionService.revoke_session, List.map_map]
    apply List.map_congr_left
    intro s _
    by_cases ha : s.session_id = a.session_id
    · by_cases htl : s.session_id ∈ tl.map fun x => x.session_id
      · simp [Function.comp, ha, htl, markSessionRevoked]
      · simp [Function.comp, ha, htl, markSessionRevoked]
    · by_cases htl : s.session_id ∈ tl.map fun x => x.session_id
      · simp [Function.comp, ha, htl]
      · simp [Function.comp, ha, htl]

theorem length_filter_map {α β : Type} (f : α → β) (P : β → Bool) (Q : α → Bool)
    (h : ∀ s, P (f s) = Q s) :
    ∀ l : List α, ((l.map f).filter P).length = (l.filter Q).length := by
  intro l
  induction l with
  | nil => rfl
  | cons a tl ih =>
    simp only [List.map_cons, List.filter_cons, h a]
    cases Q a <;> simp [ih]

theorem length_filter_and {α : Type} (P Q : α → Bool) :
    ∀ l : List α, (l.filter fun a => P a && Q a).length = ((l.filter P).filter Q).length := by
  intro l
  induction l with
  | nil => rfl
  | cons a tl ih =>
    simp only [List.filter_cons]
    cases hp : P a <;> cases hq : Q a <;> simp [hp, hq, ih]

/-- Under distinct session ids, the sessions surviving the cleanup (live and
not in the removal list) are exactly the kept ones, hence as many as the cap
allows. -/
theorem keep_length_eq {now cap : Nat} {l : List UserSession}
    (hN : (l.map fun s => s.session_id).Nodup) :
    (l.filter fun s => sessionLive now s &&
        !decide (s.session_id ∈
          ((cleanupPartition now cap 0 l).2.map fun x => x.session_id))).length =
      (cleanupPartition now cap 0 l).1.length := by
  have hperm := cleanupPartition_perm now cap l 0
  have hlnd : l.Nodup := hN.of_map
  have hkr : ((cleanupPartition now cap 0 l).1 ++ (cleanupPartition now cap 0 l).2).Nodup :=
    hperm.nodup_iff.mpr hlnd
  obtain ⟨hkND, hrND, hdisj⟩ := List.nodup_append.mp hkr
  have hinj := List.inj_on_of_nodup_map hN
  have hsub1 : (l.filter fun s => sessionLive now s &&
      !decide (s.session_id ∈
        ((cleanupPartition now cap 0 l).2.map fun x => x.session_id))) ⊆
      (cleanupPartition now cap 0 l).1 := by
    intro a ha
    have hal : a ∈ l := List.mem_of_mem_filter ha
    have hpred := List.of_mem_filter ha
    rw [Bool.and_eq_true] at hpred
    have hnotrem : ¬ a.session_id ∈
        ((cleanupPartition now cap 0 l).2.map fun x => x.session_id) := by
      simpa using hpred.2
    rcases List.mem_append.mp (hperm.mem_iff.mpr hal) with hk | hr
    · exact hk
    · exact absurd (List.mem_map_of_mem _ hr) hnotrem
  have hsub2 : (cleanupPartition now cap 0 l).1 ⊆
      (l.filter fun s => sessionLive now s &&
        !decide (s.session_id ∈
          ((cleanupPartition now cap 0 l).2.map fun x => x.session_id))) := by
    intro a ha
    have hal : a ∈ l := hperm.mem_iff.mp (List.mem_append_left _ ha)
    have hlive := cleanupPartition_keep_live a ha
    have hnotrem : ¬ a.session_id ∈
        ((cleanupPartition now cap 0 l).2.map fun x => x.session_id) := by
      intro hmem
      obtain ⟨b, hbrem, hbsid⟩ := List.mem_map.mp hmem
      have hbl : b ∈ l := hperm.mem_iff.mp (List.mem_append_right _ hbrem)
      have hab : b = a := hinj hbl hal hbsid
      exact (List.disjoint_right.mp hdisj hbrem) (hab ▸ ha)
    refine List.mem_filter.mpr ⟨hal, ?_⟩
    rw [hlive]
    simpa using hnotrem
  have hfND : (l.filter fun s => sessionLive now s &&
      !decide (s.session_id ∈
        ((cleanupPartition now cap 0 l).2.map fun x => x.session_id))).Nodup :=
    hlnd.filter _
  exact Nat.le_antisymm (hfND.subperm hsub1).length_le (hkND.subperm hsub2).length_le

/-- C2 counterexample: for a user already holding the cap of 5 live sessions,
`create_session` leaves 6 active sessions, not 5, and evicts nothing — every
pre-existing session, the oldest included, is still active afterwards. -/
theorem session_cap_not_enforced_cex :
    activeSessionCount fiveSessionDB 1 10 = EnhancedAuthConfig.MAX_SESSIONS_PER_USER ∧
    activeSessionCount
      (SessionService.create_session fiveSessionDB 1 none ("") false 6 10) 1 10 = 6 ∧
    ¬ activeSessionCount
      (SessionService.create_session fiveSessionDB 1 none ("") false 6 10) 1 10 =
        EnhancedAuthConfig.MAX_SESSIONS_PER_USER ∧
    ((SessionService.create_session fiveSessionDB 1 none ("") false 6 10).sessions.all
      fun s => s.is_active) = true := by
  decide

/-- C2 corrected: `create_session` revokes the user's expired/inactive
sessions and keeps only the cap of most recent live pre-existing sessions
(evicting older ones), but then always adds the new session on top: with `n`
live sessions before the call the user ends with `min cap n + 1` live
sessions — at the cap boundary that is `cap + 1`, with nothing evicted.  The
kept sessions are the first `cap` live ones in newest-first order, and every
evicted live session is no newer than every kept one (oldest-first, not
random). -/
theorem session_cap_eviction (db : AuthDB) (uid : Nat) (ip : Option String)
    (ua : String) (rm : Bool) (nid now : Nat)
    (hNodup : (db.sessions.map fun s => s.session_id).Nodup)
    (hfresh : ∀ s ∈ db.sessions, s.session_id ≠ nid) :
    (∀ s ∈ db.sessions, s.user_id = uid → sessionLive now s = false →
      ∀ s' ∈ (SessionService.create_session db uid ip ua rm nid now).sessions,
        s'.session_id = s.session_id →
          s'.is_active = false ∧ s'.revoked_at = some now) ∧
    activeSessionCount (SessionService.create_session db uid ip ua rm nid now) uid now =
      min EnhancedAuthConfig.MAX_SESSIONS_PER_USER (activeSessionCount db uid now) + 1 ∧
    (cleanupPartition now EnhancedAuthConfig.MAX_SESSIONS_PER_USER 0
        (sessionsForUserDesc db uid)).1 =
      ((sessionsForUserDesc db uid).filter (sessionLive now)).take
        EnhancedAuthConfig.MAX_SESSIONS_PER_USER ∧
    (∀ a ∈ (cleanupPartition now EnhancedAuthConfig.MAX_SESSIONS_PER_USER 0
        (sessionsForUserDesc db uid)).1,
      ∀ b ∈ (cleanupPartition now EnhancedAuthConfig.MAX_SESSIONS_PER_USER 0
        (sessionsForUserDesc db uid)).2,
        sessionLive now b = true → b.created_at ≤ a.created_at) := by
  have hsessions :
      (SessionService.create_session db uid ip ua rm nid now).sessions =
        (db.sessions.map fun s =>
          if s.session_id ∈
              ((cleanupPartition now EnhancedAuthConfig.MAX_SESSIONS_PER_USER 0
                (sessionsForUserDesc db uid)).2.map fun x => x.session_id)
          then markSessionRevoked now s else s) ++
        [{ session_id := nid
           user_id := uid
           ip_address := ip
           user_agent := ua.take 500
           is_active := true
           created_at := now
           last_activity := now
           expires_at :=
             if rm then now + EnhancedAuthConfig.REFRESH_TOKEN_EXPIRE_DAYS * 86400
             else now + EnhancedAuthConfig.SESSION_EXPIRE_DAYS * 86400
           revoked_at := none }] := by
    simp only [SessionService.create_session, SessionService.cleanup_old_sessions]
    rw [foldl_revoke_sessions]
  have hpA : List.Perm (sessionsForUserDesc db uid)
      (db.sessions.filter fun s => s.user_id == uid) :=
    List.perm_insertionSort _ _
  have hperm := cleanupPartition_perm now EnhancedAuthConfig.MAX_SESSIONS_PER_USER
    (sessionsForUserDesc db uid) 0
  refine ⟨?_, ?_, ?_, ?_⟩
  · intro s hs hsu hslive s' hs' hsid
    have hsA : s ∈ db.sessions.filter fun x => x.user_id == uid :=
      List.mem_filter.mpr ⟨hs, by simp [hsu]⟩
    have hsl : s ∈ sessionsForUserDesc db uid := hpA.mem_iff.mpr hsA
    have hsrem : s ∈ (cleanupPartition now EnhancedAuthConfig.MAX_SESSIONS_PER_USER 0
        (sessionsForUserDesc db uid)).2 := by
      rcases List.mem_append.mp (hperm.mem_iff.mpr hsl) with hk | hr
      · exact absurd (cleanupPartition_keep_live s hk) (by simp [hslive])
      · exact hr
    have hsidrem : s.session_id ∈
        ((cleanupPartition now EnhancedAuthConfig.MAX_SESSIONS_PER_USER 0
          (sessionsForUserDesc db uid)).2.map fun x => x.session_id) :=
      List.mem_map_of_mem _ hsrem
    rw [hsessions] at hs'
    rcases List.mem_append.mp hs' with hmap | hnew
    · obtain ⟨x, _, rfl⟩ := List.mem_map.mp hmap
      by_cases hxm : x.session_id ∈
          ((cleanupPartition now EnhancedAuthConfig.MAX_SESSIONS_PER_USER 0
            (sessionsForUserDesc db uid)).2.map fun y => y.session_id)
      · simp [hxm, markSessionRevoked]
      · rw [if_neg hxm] at hsid ⊢
        exact absurd (hsid ▸ hsidrem) hxm
    · simp only [List.mem_singleton] at hnew
      subst hnew
      exact absurd hsid.symm (hfresh s hs)
  · simp only [activeSessionCount]
    rw [hsessions, List.filter_append, List.length_append]
    have hnotexp : ¬ ((if rm then now + EnhancedAuthConfig.REFRESH_TOKEN_EXPIRE_DAYS * 86400
        else now + EnhancedAuthConfig.SESSION_EXPIRE_DAYS * 86400) < now) := by
      cases rm <;> simp
    have hnew1 : (List.filter (fun s => s.user_id == uid && sessionLive now s)
        [({ session_id := nid
            user_id := uid
            ip_address := ip
            user_agent := ua.take 500
            is_active := true
            created_at := now
            last_activity := now
            expires_at :=
              if rm then now + EnhancedAuthConfig.REFRESH_TOKEN_EXPIRE_DAYS * 86400
              else now + EnhancedAuthConfig.SESSION_EXPIRE_DAYS * 86400
            revoked_at := none } : UserSession)]).length = 1 := by
      simp [sessionLive, hnotexp]
    rw [hnew1]
    have e1 : ((db.sessions.map fun s =>
        if s.session_id ∈
            ((cleanupPartition now EnhancedAuthConfig.MAX_SESSIONS_PER_USER 0
              (sessionsForUserDesc db uid)).2.map fun x => x.session_id)
        then markSessionRevoked now s else s).filter
          (fun s => s.user_id == uid && sessionLive now s)).length =
        (db.sessions.filter fun s => (s.user_id == uid && sessionLive now s) &&
          !decide (s.session_id ∈
            ((cleanupPartition now EnhancedAuthConfig.MAX_SESSIONS_PER_USER 0
              (sessionsForUserDesc db uid)).2.map fun x => x.session_id))).length := by
      apply length_filter_map
      intro s
      by_cases hm : s.session_id ∈
          ((cleanupPartition now EnhancedAuthConfig.MAX_SESSIONS_PER_USER 0
            (sessionsForUserDesc db uid)).2.map fun x => x.session_id)
      · simp [hm, markSessionRevoked, sessionLive]
      · simp [hm]
    have e2 : (db.sessions.filter fun s => (s.user_id == uid && sessionLive now s) &&
          !decide (s.session_id ∈
            ((cleanupPartition now EnhancedAuthConfig.MAX_SESSIONS_PER_USER 0
              (sessionsForUserDesc db uid)).2.map fun x => x.session_id))).length =
        (db.sessions.filter fun s => (s.user_id == uid) && (sessionLive now s &&
          !decide (s.session_id ∈
            ((cleanupPartition now EnhancedAuthConfig.MAX_SESSIONS_PER_USER 0
              (sessionsForUserDesc db uid)).2.map fun x => x.session_id)))).length := by
      congr 1
      apply List.filter_congr
      intro s _
      rw [Bool.and_assoc]
    have e3 : (db.sessions.filter fun s => (s.user_id == uid) && (sessionLive now s &&
          !decide (s.session_id ∈
            ((cleanupPartition now EnhancedAuthConfig.MAX_SESSIONS_PER_USER 0
              (sessionsForUserDesc db uid)).2.map fun x => x.session_id)))).length =
        (((db.sessions.filter fun s => s.user_id == uid).filter fun s => sessionLive now s &&
          !decide (s.session_id ∈
            ((cleanupPartition now EnhancedAuthConfig.MAX_SESSIONS_PER_USER 0
              (sessionsForUserDesc db uid)).2.map fun x => x.session_id))).length) :=
      length_filter_and _ _ db.sessions
    have e4 : (((db.sessions.filter fun s => s.user_id == uid).filter
          fun s => sessionLive now s &&
          !decide (s.session_id ∈
            ((cleanupPartition now EnhancedAuthConfig.MAX_SESSIONS_PER_USER 0
              (sessionsForUserDesc db uid)).2.map fun x => x.session_id))).length) =
        (((sessionsForUserDesc db uid).filter fun s => sessionLive now s &&
          !decide (s.session_id ∈
            ((cleanupPartition now EnhancedAuthConfig.MAX_SESSIONS_PER_USER 0
              (sessionsForUserDesc db uid)).2.map fun x => x.session_id))).length) :=
      (hpA.symm.filter _).length_eq
    have hNl : ((sessionsForUserDesc db uid).map fun s => s.session_id).Nodup := by
      have hA : ((db.sessions.filter fun s => s.user_id == uid).map
          fun s => s.session_id).Nodup :=
        hNodup.sublist ((List.filter_sublist _).map _)
      exact (hpA.map _).nodup_iff.mpr hA
    have e5 := @keep_length_eq now EnhancedAuthConfig.MAX_SESSIONS_PER_USER
      (sessionsForUserDesc db uid) hNl
    have e6 : (cleanupPartition now EnhancedAuthConfig.MAX_SESSIONS_PER_USER 0
        (sessionsForUserDesc db uid)).1.length =
        min EnhancedAuthConfig.MAX_SESSIONS_PER_USER
          ((sessionsForUserDesc db uid).filter (sessionLive now)).length := by
      rw [cleanupPartition_keep now EnhancedAuthConfig.MAX_SESSIONS_PER_USER
        (sessionsForUserDesc db uid) 0]
      rw [Nat.sub_zero, List.length_take]
    have e7 : ((sessionsForUserDesc db uid).filter (sessionLive now)).length =
        ((db.sessions.filter fun s => s.user_id == uid).filter (sessionLive now)).length :=
      (hpA.filter _).length_eq
    have e8 : ((db.sessions.filter fun s => s.user_id == uid).filter
          (sessionLive now)).length =
        (db.sessions.filter fun s => s.user_id == uid && sessionLive now s).length :=
      (length_filter_and _ _ db.sessions).symm
    have e9 : activeSessionCount db uid now =
        (db.sessions.filter fun s => s.user_id == uid && sessionLive now s).length := rfl
    omega
  · have := cleanupPartition_keep now EnhancedAuthConfig.MAX_SESSIONS_PER_USER
      (sessionsForUserDesc db uid) 0
    rwa [Nat.sub_zero] at this
  · have hsorted : List.Pairwise createdDescOrder (sessionsForUserDesc db uid) :=
      List.sorted_insertionSort _ _
    have hpf : List.Pairwise createdDescOrder
        ((sessionsForUserDesc db uid).filter (sessionLive now)) := hsorted.filter _
    have hsplit := (List.pairwise_append.mp (by
      rw [List.take_append_drop EnhancedAuthConfig.MAX_SESSIONS_PER_USER
        ((sessionsForUserDesc db uid).filter (sessionLive now))]
      exact hpf)).2.2
    intro a ha b hb hblive
    have hkeq := cleanupPartition_keep now EnhancedAuthConfig.MAX_SESSIONS_PER_USER
      (sessionsForUserDesc db uid) 0
    rw [Nat.sub_zero] at hkeq
    rw [hkeq] at ha
    have hreq := cleanupPartition_remove_live now EnhancedAuthConfig.MAX_SESSIONS_PER_USER
      (sessionsForUserDesc db uid) 0
    rw [Nat.sub_zero] at hreq
    have hb' : b ∈ ((sessionsForUserDesc db uid).filter (sessionLive now)).drop
        EnhancedAuthConfig.MAX_SESSIONS_PER_USER := by
      rw [← hreq]
      exact List.mem_filter.mpr ⟨hb, hblive⟩
    exact hsplit a ha b hb'

/-- Witness for C2's amended statement on the cap-boundary store. -/
theorem session_cap_eviction_witness :
    activeSessionCount
        (SessionService.create_session fiveSessionDB 1 none ("") false 6 10) 1 10 =
      min EnhancedAuthConfig.MAX_SESSIONS_PER_USER (activeSessionCount fiveSessionDB 1 10)
        + 1 :=
  (session_cap_eviction fiveSessionDB 1 none ("") false 6 10 (by decide) (by decide)).2.1

end AlphaAI
